import Mathlib

/-!
Verification of the muni-knihovny library-registry pipeline.

The definitions below are a shallow embedding of the Python sources
`data_processor.py` and `ccmm_generator.py`.  Cell values of the tabular
record set are modelled as `Option Str` (`none` = a missing value, i.e.
pandas `NaN`/`None`); a string is modelled as a list of characters.
Column existence is modelled separately from per-row values, mirroring
the distinction pandas makes between a missing column and a missing
cell.
-/

namespace MuniKnihovny

/-- Strings are modelled as lists of characters. -/
abbrev Str := List Char

/-- The whitespace characters of the Python `str.strip` and of the
regex class `\s` (ASCII part). -/
def isPySpace (c : Char) : Bool :=
  c = ' ' || c = '\t' || c = '\n' || c = '\r' || c = '\x0b' || c = '\x0c'

/-- Python `str.strip()`: drop leading and trailing whitespace. -/
def pyStrip (l : Str) : Str :=
  ((l.dropWhile isPySpace).reverse.dropWhile isPySpace).reverse

/-- Python `str.startswith`. -/
def pyStartsWith (l p : Str) : Bool := p.isPrefixOf l

/-! ## Field normalizer (`data_processor.py`, `transform_data`) -/

/-- Postal-code normalization (`transform_data`, step 1): the pandas
`str.replace` of the regex `[^\d]` by the empty string — delete every
non-digit character; the `str` accessor propagates a missing value. -/
def psc_clean (v : Option Str) : Option Str :=
  v.map (fun s => s.filter (fun c => c.isDigit))

/-- A character admitted by the regex class `[^\s@]`. -/
def okChar (c : Char) : Bool := !(isPySpace c) && !(c = '@')

/-- A match of `[^\s@]+`: a nonempty run of `okChar` characters. -/
def run1 (l : Str) : Bool := !l.isEmpty && l.all okChar

/-- A full match of the email regex core `[^\s@]+@[^\s@]+\.[^\s@]+`:
there is a position of the `@` and a later position of the `.` splitting
the string into three nonempty `[^\s@]+` runs. -/
def emailCore (l : Str) : Bool :=
  (List.range l.length).any (fun i =>
    l.get? i = some '@' && run1 (l.take i) &&
      (List.range (l.drop (i + 1)).length).any (fun j =>
        (l.drop (i + 1)).get? j = some '.' && run1 ((l.drop (i + 1)).take j) &&
          run1 ((l.drop (i + 1)).drop (j + 1))))

/-- Anchored match under Python `re.match` semantics: the anchor `$`
also matches just before a single trailing newline. -/
def emailFullMatch (l : Str) : Bool :=
  emailCore l || (l.getLast? = some '\n' && emailCore l.dropLast)

/-- Email validation (`transform_data`, step 2): the pandas `str.match`
against the regex `^[^\s@]+@[^\s@]+\.[^\s@]+$` with `na=False` — a
missing value yields `false`. -/
def email_valid (v : Option Str) : Bool :=
  match v with
  | none => false
  | some s => emailFullMatch s

/-- The verbal email rule of the spec, for the refinement comparison with
`email_valid`: "no whitespace, at least one `@`, and at least one `.`
after the `@`". -/
def spec_email_pattern (s : Str) : Bool :=
  s.all (fun c => !(isPySpace c)) && s.contains '@' &&
    (List.range s.length).any (fun i =>
      (List.range s.length).any (fun j =>
        i < j && s.get? i = some '@' && s.get? j = some '.'))

/-- The language of the email regex core
`[^\s@]+@[^\s@]+\.[^\s@]+`: three nonempty whitespace-free, `@`-free
runs around a single `@` and a later `.`. -/
def EmailShape (l : Str) : Prop :=
  ∃ a b c : Str, a ≠ [] ∧ b ≠ [] ∧ c ≠ [] ∧
    (∀ x ∈ a, okChar x = true) ∧ (∀ x ∈ b, okChar x = true) ∧
    (∀ x ∈ c, okChar x = true) ∧ l = a ++ '@' :: (b ++ '.' :: c)

/-- URL normalization (`_normalize_url`): missing or empty input gives
`None`; otherwise strip surrounding whitespace, keep values already
starting with `http://` or `https://`, prefix `https://` to values
starting with `www.`, and `https://www.` to everything else. -/
def normalize_url (v : Option Str) : Option Str :=
  match v with
  | none => none
  | some s =>
    if s = [] then none
    else
      let u := pyStrip s
      if pyStartsWith u ("http://".data) || pyStartsWith u ("https://".data) then
        some u
      else if pyStartsWith u ("www.".data) then
        some ("https://".data ++ u)
      else
        some ("https://www.".data ++ u)

/-- Status normalization (`transform_data`, step 4): the lowered,
stripped text equals the literal `aktivní` when the value is present,
else `False`.  Lower-casing is modelled with `Char.toLower`. -/
def is_active (v : Option Str) : Bool :=
  match v with
  | none => false
  | some s => pyStrip (s.map Char.toLower) = ("aktivní".data)

/-! ## Linking-key builder (`data_processor.py`, `_add_linking_keys`) -/

/-- Stable identifier: `df[evCol].str.replace(' ', '-', regex=False)` —
replace each space with a dash; missing propagates. -/
def knihovna_id (evId : Option Str) : Option Str :=
  evId.map (fun s => s.map (fun c => if c = ' ' then '-' else c))

/-- Canonical URI: the fixed template `https://knihovny.cz/library/`
followed by the registry number with spaces replaced by dashes, when
the registry number is present, else `None`. -/
def library_uri (evId : Option Str) : Option Str :=
  evId.map (fun s =>
    ("https://knihovny.cz/library/".data) ++ s.map (fun c => if c = ' ' then '-' else c))

/-- pandas `astype(str)` on a single cell: a missing value is rendered as
the string `"nan"`. -/
def astype_str (v : Option Str) : Str :=
  match v with
  | none => "nan".data
  | some s => s

/-- Geographic key of one row, when both address columns exist: the
`astype(str)` rendering of the region cell, an underscore, and the
`astype(str)` rendering of the district cell. -/
def geo_key_row (kraj okres : Option Str) : Str :=
  astype_str kraj ++ ("_".data) ++ astype_str okres

/-- The record set fragment relevant to the geographic key: whether the
two address columns exist, and the per-row (region, district) cells. -/
structure GeoFrame where
  hasKraj : Bool
  hasOkres : Bool
  rows : List (Option Str × Option Str)

/-- The `geo_key` column added by `_add_linking_keys`: present (for all
rows at once) iff both address columns exist. -/
def geo_key_col (f : GeoFrame) : Option (List Str) :=
  if f.hasKraj && f.hasOkres then
    some (f.rows.map (fun r => geo_key_row r.1 r.2))
  else
    none

/-! ## Quality scorer (`data_processor.py`, `calculate_quality_metrics`) -/

/-- The record set fragment relevant to the quality metrics: one row
keeps the cell of the discovered email column, the cell of the
discovered website column and the derived `is_active` flag. -/
structure QRow where
  email : Option Str
  web : Option Str
  active : Bool

/-- The record set together with column-existence flags: `hasEmailCol`
(resp. `hasWebCol`, `hasActiveCol`) says whether `transform_data` found
an email (resp. website, status) column at all. -/
structure QFrame where
  rows : List QRow
  hasEmailCol : Bool
  hasWebCol : Bool
  hasActiveCol : Bool

/-- numpy division of a count by `total_records`: dividing by a zero row
count produces a non-number (`nan`/`inf`), modelled as `none`; no
exception is raised. -/
def divByTotal (cnt total : Nat) : Option ℚ :=
  if total = 0 then none else some ((cnt : ℚ) / (total : ℚ))

/-- Email completeness: the count of rows with a present email cell
over `total_records` if an email column was found, else 0. -/
def email_completeness (f : QFrame) : Option ℚ :=
  if f.hasEmailCol then
    divByTotal (f.rows.countP (fun r => r.email.isSome)) f.rows.length
  else
    some 0

/-- Web completeness: the count of rows with a present website cell
over `total_records` if a website column was found, else 0. -/
def web_completeness (f : QFrame) : Option ℚ :=
  if f.hasWebCol then
    divByTotal (f.rows.countP (fun r => r.web.isSome)) f.rows.length
  else
    some 0

/-- Active fraction: the sum of the `is_active` column over
`total_records` if that column exists, else 0. -/
def active_frac (f : QFrame) : Option ℚ :=
  if f.hasActiveCol then
    divByTotal (f.rows.countP (fun r => r.active)) f.rows.length
  else
    some 0

/-- Quality score: the sum of the three ratios divided by 3; a
non-number operand (`nan`) propagates. -/
def quality_score (f : QFrame) : Option ℚ :=
  match email_completeness f, web_completeness f, active_frac f with
  | some e, some w, some a => some ((e + w + a) / 3)
  | _, _, _ => none

/-! ## Dataset description generator (`ccmm_generator.py`) -/

/-- The fixed list of required top-level keys checked by
`validate_ccmm`. -/
def required_fields : List String :=
  ["@context", "@type", "dct:title", "dct:description",
   "dct:publisher", "dcat:contactPoint"]

/-- The result of `validate_ccmm`. -/
structure Validation where
  is_valid : Bool
  missing_fields : List String
  warnings : List String
deriving DecidableEq

/-- Model of `validate_ccmm`: the document is modelled by its list of
top-level keys.  Starting from a valid result with empty
`missing_fields` and `warnings`, each absent required field is appended
to `missing_fields` and flips `is_valid` to `False`; an absent
`dcat:distribution` key only appends a warning. -/
def validate_ccmm (keys : List String) : Validation :=
  let v0 : Validation := ⟨true, [], []⟩
  let v1 := required_fields.foldl
    (fun v field =>
      if keys.contains field then v
      else ⟨false, v.missing_fields ++ [field], v.warnings⟩)
    v0
  if keys.contains "dcat:distribution" then v1
  else ⟨v1.is_valid, v1.missing_fields, v1.warnings ++ ["No distributions defined"]⟩

/-- Round-half-to-even of a rational to an integer, as the builtin
`round` of Python does on exact halves. -/
def roundHalfEven (q : ℚ) : ℤ :=
  if q - (⌊q⌋ : ℚ) = 1 / 2 then
    (if ⌊q⌋ % 2 = 0 then ⌊q⌋ else ⌊q⌋ + 1)
  else
    round q

/-- Python `round(x, 3)`. -/
def py_round3 (q : ℚ) : ℚ := ((roundHalfEven (q * 1000) : ℤ) : ℚ) / 1000

/-- Model of `_generate_quality_measurements`: one measurement
(modelled as metric label and rounded value) for `email_completeness`
if present, then one for `quality_score` if present; every other key is
ignored.  The stats mapping is modelled as an association list. -/
def generate_quality_measurements (stats : List (String × ℚ)) : List (String × ℚ) :=
  (match stats.lookup "email_completeness" with
   | some v => [("Úplnost emailových kontaktů", py_round3 v)]
   | none => []) ++
  (match stats.lookup "quality_score" with
   | some v => [("Celkové skóre kvality dat", py_round3 v)]
   | none => [])

/-- The top-level keys of the fixed CCMM metadata template built by
`generate_dataset_metadata`, in insertion order, before the optional
quality-measurement key. -/
def ccmm_base_keys : List String :=
  ["@context", "@type", "@id", "dct:title", "dct:description",
   "dct:publisher", "dcat:contactPoint", "dct:spatial",
   "dct:accrualPeriodicity", "dct:language", "dct:license",
   "dcat:keyword", "dcat:theme", "dct:issued", "dct:modified",
   "dcat:distribution"]

/-- The part of the output of `generate_dataset_metadata` the claims
are about: its key set and its quality-measurement list (if any). -/
structure CCMMMeta where
  keys : List String
  measurements : Option (List (String × ℚ))
deriving DecidableEq

/-- Model of `generate_dataset_metadata`: the template document, plus
the `dqv:hasQualityMeasurement` entry exactly when `stats` is truthy,
i.e. a non-empty mapping. -/
def generate_dataset_metadata (stats : List (String × ℚ)) : CCMMMeta :=
  if stats.isEmpty then
    { keys := ccmm_base_keys, measurements := none }
  else
    { keys := ccmm_base_keys ++ ["dqv:hasQualityMeasurement"],
      measurements := some (generate_quality_measurements stats) }

/-! ## Linked-data export (`data_processor.py`, `_export_jsonld`) -/

/-- C5: the scenario row of the spec.  Registry number `"123 456"`, region
`"Praha"`, district `"Praha 1"`, email `"info@knihovna.cz"`, website
`"www.knihovna.cz"` enrich to stable identifier `"123-456"`, geographic
key `"Praha_Praha 1"`, a true email-validity flag, normalized URL
`"https://www.knihovna.cz"` and canonical URI
`"https://knihovny.cz/library/123-456"`. -/
theorem scenario_enrichment :
    knihovna_id (some ("123 456".data)) = some ("123-456".data) ∧
    geo_key_row (some ("Praha".data)) (some ("Praha 1".data)) = ("Praha_Praha 1".data) ∧
    email_valid (some ("info@knihovna.cz".data)) = true ∧
    normalize_url (some ("www.knihovna.cz".data)) = some ("https://www.knihovna.cz".data) ∧
    library_uri (some ("123 456".data)) = some ("https://knihovny.cz/library/123-456".data) := by
  refine ⟨by decide, by decide, by decide, by decide, by decide⟩

/-- C8: the normalized postal code is absent iff the raw value is
absent, and when present it consists of digit characters only. -/
theorem psc_clean_spec (v : Option Str) :
    ((psc_clean v).isNone ↔ v.isNone) ∧
      (∀ s, psc_clean v = some s → s.all Char.isDigit = true) := by
  constructor
  · cases v <;> simp [psc_clean]
  · intro s hs
    cases v with
    | none => simp [psc_clean] at hs
    | some t =>
      have hs' : t.filter (fun c => c.isDigit) = s := by
        simpa [psc_clean] using hs
      subst hs'
      simp [List.all_eq_true, List.mem_filter]

/-- Witness for `psc_clean_spec` at the concrete input `"110 00 Praha"`. -/
theorem psc_clean_spec_witness :
    ((psc_clean (some ("110 00 Praha".data))).isNone ↔ (some ("110 00 Praha".data)).isNone) ∧
      ("11000".data).all Char.isDigit = true := by
  refine ⟨(psc_clean_spec (some ("110 00 Praha".data))).1, ?_⟩
  exact (psc_clean_spec (some ("110 00 Praha".data))).2 ("11000".data) (by decide)

/-- C6: the stable identifier and the canonical URI are absent together
exactly when the registry number is absent, and the URI is the fixed
template `https://knihovny.cz/library/` applied to the identifier. -/
theorem linking_keys_paired (evId : Option Str) :
    ((knihovna_id evId).isNone ↔ evId.isNone) ∧
    ((library_uri evId).isNone ↔ evId.isNone) ∧
    (∀ i, knihovna_id evId = some i →
        library_uri evId = some (("https://knihovny.cz/library/".data) ++ i)) := by
  refine ⟨?_, ?_, ?_⟩
  · cases evId <;> simp [knihovna_id]
  · cases evId <;> simp [library_uri]
  · intro i hi
    cases evId with
    | none => simp [knihovna_id] at hi
    | some s =>
      have hi' : s.map (fun c => if c = ' ' then '-' else c) = i := by
        simpa [knihovna_id] using hi
      subst hi'
      simp [library_uri]

/-- Witness for `linking_keys_paired` at registry number `"123 456"`. -/
theorem linking_keys_paired_witness :
    ((knihovna_id (some ("123 456".data))).isNone ↔ (some ("123 456".data) : Option Str).isNone) ∧
      library_uri (some ("123 456".data)) =
        some (("https://knihovny.cz/library/".data) ++ ("123-456".data)) := by
  refine ⟨(linking_keys_paired (some ("123 456".data))).1, ?_⟩
  exact (linking_keys_paired (some ("123 456".data))).2.2 ("123-456".data) (by decide)

/-- C2 fails on the code: with both address columns present, a row whose
region cell is missing still receives a geographic key — pandas
`astype(str)` renders the missing value as the string `"nan"`, so the
partial key `"nan_Praha 1"` is emitted instead of no key. -/
theorem geo_key_counterexample :
    geo_key_col { hasKraj := true, hasOkres := true,
                  rows := [(none, some ("Praha 1".data))] } =
      some [("nan_Praha 1".data)] := by
  decide

/-- C2 amended: the geographic key column is present iff both address
columns exist; in that case every row gets a key — the region and
district cells rendered with `astype(str)` (a missing cell becoming the
string `"nan"`) joined by `'_'` — and rows with both cells present get
exactly `region_district`. -/
theorem geo_key_amended (f : GeoFrame) :
    ((geo_key_col f).isSome = (f.hasKraj && f.hasOkres)) ∧
    (∀ ks, geo_key_col f = some ks →
        ks = f.rows.map (fun r => astype_str r.1 ++ ('_' :: astype_str r.2))) ∧
    (∀ kraj okres : Str, geo_key_row (some kraj) (some okres) = kraj ++ ('_' :: okres)) ∧
    (∀ okres, geo_key_row none okres = ("nan".data) ++ ('_' :: astype_str okres)) := by
  refine ⟨?_, ?_, ?_, ?_⟩
  · by_cases h : f.hasKraj && f.hasOkres <;> simp [geo_key_col, h]
  · intro ks hks
    by_cases h : f.hasKraj && f.hasOkres
    · simp only [geo_key_col, h, if_true, Option.some.injEq] at hks
      subst hks
      refine List.map_congr_left ?_
      intro r _
      simp [geo_key_row]
    · simp [geo_key_col, h] at hks
  · intro kraj okres
    simp [geo_key_row, astype_str]
  · intro okres
    simp [geo_key_row, astype_str]

/-- Witness for `geo_key_amended` at a one-row frame with both columns. -/
theorem geo_key_amended_witness :
    (geo_key_col { hasKraj := true, hasOkres := true,
                   rows := [(some ("Praha".data), some ("Praha 1".data))] }).isSome = true ∧
      [("Praha_Praha 1".data)] =
        [((some ("Praha".data), some ("Praha 1".data)) :
            Option Str × Option Str)].map
          (fun r => astype_str r.1 ++ ('_' :: astype_str r.2)) := by
  constructor
  · exact (geo_key_amended _).1
  · exact (geo_key_amended
      { hasKraj := true, hasOkres := true,
        rows := [(some ("Praha".data), some ("Praha 1".data))] }).2.1
      [("Praha_Praha 1".data)] (by decide)

/-- The required-field loop of `validate_ccmm` accumulates exactly the
fields absent from `keys`, in list order, and conjoins validity with
their absence. -/
theorem validate_fold (keys fields : List String) (v : Validation) :
    fields.foldl
        (fun v field =>
          if keys.contains field then v
          else ⟨false, v.missing_fields ++ [field], v.warnings⟩)
        v =
      ⟨v.is_valid && (fields.filter (fun f => !keys.contains f)).isEmpty,
       v.missing_fields ++ fields.filter (fun f => !keys.contains f),
       v.warnings⟩ := by
  induction fields generalizing v with
  | nil => simp
  | cons f fs ih =>
    by_cases h : keys.contains f
    · simp only [List.foldl_cons, h, if_true, List.filter_cons, Bool.not_true]
      rw [ih]
      simp
    · simp only [List.foldl_cons, h, if_false, List.filter_cons, Bool.not_false]
      rw [ih]
      simp

/-- C4: `validate_ccmm` reports exactly the absent required keys in
encounter order, `is_valid` holds iff none is absent, and an absent
`dcat:distribution` key only contributes the warning (validity is a
function of the required-key list alone). -/
theorem validate_ccmm_spec (keys : List String) :
    (validate_ccmm keys).missing_fields =
        required_fields.filter (fun f => !keys.contains f) ∧
    ((validate_ccmm keys).is_valid = true ↔
        required_fields.filter (fun f => !keys.contains f) = []) ∧
    (validate_ccmm keys).warnings =
        (if keys.contains "dcat:distribution" then []
         else ["No distributions defined"]) := by
  simp only [validate_ccmm]
  rw [validate_fold]
  by_cases h : "dcat:distribution" ∈ keys <;>
    simp [h, List.isEmpty_iff]

/-- C10: the metadata document carries the `dqv:hasQualityMeasurement`
key iff the stats mapping is non-empty; its measurement list has one
entry for `email_completeness` and then one for `quality_score`, each
present iff the key is in the mapping, with values rounded to three
decimals; every other key contributes nothing, so a non-empty mapping
with neither recognized key yields an empty list. -/
theorem generate_dataset_metadata_spec (stats : List (String × ℚ)) :
    ((generate_dataset_metadata stats).keys.contains "dqv:hasQualityMeasurement" =
        !stats.isEmpty) ∧
    ((generate_dataset_metadata stats).measurements.isSome = !stats.isEmpty) ∧
    (∀ ms, (generate_dataset_metadata stats).measurements = some ms →
        ms = (match stats.lookup "email_completeness" with
              | some v => [("Úplnost emailových kontaktů", py_round3 v)]
              | none => []) ++
             (match stats.lookup "quality_score" with
              | some v => [("Celkové skóre kvality dat", py_round3 v)]
              | none => [])) ∧
    (stats.lookup "email_completeness" = none →
     stats.lookup "quality_score" = none →
     stats.isEmpty = false →
     (generate_dataset_metadata stats).measurements = some []) := by
  refine ⟨?_, ?_, ?_, ?_⟩
  · cases hstats : stats.isEmpty <;>
      simp [generate_dataset_metadata, hstats]
    all_goals decide
  · cases hstats : stats.isEmpty <;>
      simp [generate_dataset_metadata, hstats]
  · intro ms hms
    cases hstats : stats.isEmpty
    · have hms' : generate_quality_measurements stats = ms := by
        simpa [generate_dataset_metadata, hstats] using hms
      subst hms'
      rfl
    · simp [generate_dataset_metadata, hstats] at hms
  · intro he hq hne
    simp [generate_dataset_metadata, hne, generate_quality_measurements, he, hq]

/-- Witness for `generate_dataset_metadata_spec`: a non-empty stats
mapping holding only the unrecognized key `web_completeness` yields an
empty measurement list. -/
theorem generate_dataset_metadata_witness :
    (generate_dataset_metadata [("web_completeness", (1 : ℚ) / 2)]).measurements =
      some [] := by
  exact (generate_dataset_metadata_spec [("web_completeness", (1 : ℚ) / 2)]).2.2.2
    (by decide) (by decide) (by decide)

/-- Any ratio produced by `divByTotal` over a count bounded by the
total lies in `[0, 1]`. -/
theorem divByTotal_mem (cnt total : Nat) (hle : cnt ≤ total) (q : ℚ)
    (hq : divByTotal cnt total = some q) : 0 ≤ q ∧ q ≤ 1 := by
  by_cases h : total = 0
  · simp [divByTotal, h] at hq
  · have hq' : ((cnt : ℚ) / (total : ℚ)) = q := by
      simpa [divByTotal, h] using hq
    subst hq'
    have htot : (0 : ℚ) < (total : ℚ) := by
      exact_mod_cast Nat.pos_of_ne_zero h
    constructor
    · positivity
    · rw [div_le_one htot]
      exact_mod_cast hle

/-- A non-number among the three ratios propagates into the quality
score. -/
theorem quality_score_none (f : QFrame)
    (h : email_completeness f = none ∨ web_completeness f = none ∨
      active_frac f = none) :
    quality_score f = none := by
  rcases hemail : email_completeness f with _ | e <;>
    rcases hweb : web_completeness f with _ | w <;>
      rcases hact : active_frac f with _ | a <;>
        simp_all [quality_score]

/-- C1 amended: every ratio that is a number lies in `[0, 1]`; for a
non-empty record set all three ratios are numbers and the quality score
is their unweighted arithmetic mean; a record set with zero rows yields
score `0` only when none of the three source columns exists — with any
of the email, website or status columns present, the corresponding
zero-row ratio and the score are non-numbers (numpy `0/0`, a `nan`),
not `0`.  No exception is raised in any case. -/
theorem quality_metrics_amended (f : QFrame) :
    (∀ q, email_completeness f = some q → 0 ≤ q ∧ q ≤ 1) ∧
    (∀ q, web_completeness f = some q → 0 ≤ q ∧ q ≤ 1) ∧
    (∀ q, active_frac f = some q → 0 ≤ q ∧ q ≤ 1) ∧
    (f.rows.length ≠ 0 →
        ∃ e w a, email_completeness f = some e ∧ web_completeness f = some w ∧
          active_frac f = some a ∧ quality_score f = some ((e + w + a) / 3)) ∧
    (f.hasEmailCol = false → f.hasWebCol = false → f.hasActiveCol = false →
        quality_score f = some 0) ∧
    (f.rows = [] →
        (f.hasEmailCol = true → email_completeness f = none) ∧
        (f.hasWebCol = true → web_completeness f = none) ∧
        (f.hasActiveCol = true → active_frac f = none) ∧
        ((f.hasEmailCol || f.hasWebCol || f.hasActiveCol) = true →
          quality_score f = none)) := by
  refine ⟨?_, ?_, ?_, ?_, ?_, ?_⟩
  · intro q hq
    by_cases h : f.hasEmailCol
    · exact divByTotal_mem _ _ (List.countP_le_length _) q
        (by simpa [email_completeness, h] using hq)
    · have : (0 : ℚ) = q := by simpa [email_completeness, h] using hq
      subst this
      norm_num
  · intro q hq
    by_cases h : f.hasWebCol
    · exact divByTotal_mem _ _ (List.countP_le_length _) q
        (by simpa [web_completeness, h] using hq)
    · have : (0 : ℚ) = q := by simpa [web_completeness, h] using hq
      subst this
      norm_num
  · intro q hq
    by_cases h : f.hasActiveCol
    · exact divByTotal_mem _ _ (List.countP_le_length _) q
        (by simpa [active_frac, h] using hq)
    · have : (0 : ℚ) = q := by simpa [active_frac, h] using hq
      subst this
      norm_num
  · intro hlen
    have he : ∃ e, email_completeness f = some e := by
      by_cases h : f.hasEmailCol <;>
        simp [email_completeness, h, divByTotal, hlen]
    have hw : ∃ w, web_completeness f = some w := by
      by_cases h : f.hasWebCol <;>
        simp [web_completeness, h, divByTotal, hlen]
    have ha : ∃ a, active_frac f = some a := by
      by_cases h : f.hasActiveCol <;>
        simp [active_frac, h, divByTotal, hlen]
    obtain ⟨e, he⟩ := he
    obtain ⟨w, hw⟩ := hw
    obtain ⟨a, ha⟩ := ha
    exact ⟨e, w, a, he, hw, ha, by simp [quality_score, he, hw, ha]⟩
  · intro h1 h2 h3
    simp [quality_score, email_completeness, web_completeness, active_frac, h1, h2, h3]
  · intro hrows
    have hE : f.hasEmailCol = true → email_completeness f = none := by
      intro h
      simp [email_completeness, h, hrows, divByTotal]
    have hW : f.hasWebCol = true → web_completeness f = none := by
      intro h
      simp [web_completeness, h, hrows, divByTotal]
    have hA : f.hasActiveCol = true → active_frac f = none := by
      intro h
      simp [active_frac, h, hrows, divByTotal]
    refine ⟨hE, hW, hA, ?_⟩
    intro hor
    have hor' : (f.hasEmailCol = true ∨ f.hasWebCol = true) ∨ f.hasActiveCol = true := by
      simpa using hor
    rcases hor' with (h | h) | h
    · exact quality_score_none f (Or.inl (hE h))
    · exact quality_score_none f (Or.inr (Or.inl (hW h)))
    · exact quality_score_none f (Or.inr (Or.inr (hA h)))

/-- Witness for `quality_metrics_amended` at a one-row record set whose
row has an email, no website and active status. -/
theorem quality_metrics_amended_witness :
    ∃ e w a,
      email_completeness
          { rows := [{ email := some ("a@b.cz".data), web := none, active := true }],
            hasEmailCol := true, hasWebCol := true, hasActiveCol := true } = some e ∧
        web_completeness
            { rows := [{ email := some ("a@b.cz".data), web := none, active := true }],
              hasEmailCol := true, hasWebCol := true, hasActiveCol := true } = some w ∧
          active_frac
              { rows := [{ email := some ("a@b.cz".data), web := none, active := true }],
                hasEmailCol := true, hasWebCol := true, hasActiveCol := true } = some a ∧
            quality_score
                { rows := [{ email := some ("a@b.cz".data), web := none, active := true }],
                  hasEmailCol := true, hasWebCol := true, hasActiveCol := true } =
              some ((e + w + a) / 3) := by
  exact (quality_metrics_amended
    { rows := [{ email := some ("a@b.cz".data), web := none, active := true }],
      hasEmailCol := true, hasWebCol := true, hasActiveCol := true }).2.2.2.1 (by decide)

/-- C1 fails on the code at the zero-row boundary: with the usual
columns present and no rows, the counts divide by a zero
`total_records`, numpy yields a non-number (`nan`), and the quality
score is undefined rather than `0`. -/
theorem quality_metrics_counterexample :
    quality_score
        { rows := [], hasEmailCol := true, hasWebCol := true, hasActiveCol := true } =
      none ∧
      quality_score
          { rows := [], hasEmailCol := true, hasWebCol := true, hasActiveCol := true } ≠
        some 0 := by
  refine ⟨by decide, by decide⟩

/-- The first element surviving `dropWhile` fails the predicate. -/
theorem head?_dropWhile_false (p : Char → Bool) (l : Str) (c : Char)
    (h : (l.dropWhile p).head? = some c) : p c = false := by
  induction l with
  | nil => simp [List.dropWhile] at h
  | cons a t ih =>
    rw [List.dropWhile_cons] at h
    by_cases hp : p a = true
    · exact ih (by simpa [hp] using h)
    · have hac : a = c := by simpa [hp] using h
      subst hac
      simpa using hp

/-- A list whose first and last characters are not whitespace is a
fixed point of `pyStrip`. -/
theorem pyStrip_eq_self (l : Str)
    (h1 : ∀ c, l.head? = some c → isPySpace c = false)
    (h2 : ∀ c, l.getLast? = some c → isPySpace c = false) :
    pyStrip l = l := by
  have hd : l.dropWhile isPySpace = l := by
    cases l with
    | nil => rfl
    | cons a t =>
      rw [List.dropWhile_cons]
      simp [h1 a rfl]
  rw [pyStrip, hd]
  have hr : l.reverse.dropWhile isPySpace = l.reverse := by
    rcases hl : l.reverse with _ | ⟨a, t⟩
    · rfl
    · rw [List.dropWhile_cons]
      have ha : l.getLast? = some a := by
        rw [← List.head?_reverse, hl]
        rfl
      simp [h2 a ha]
  rw [hr, List.reverse_reverse]

/-- The first character left by `pyStrip` is not whitespace. -/
theorem pyStrip_head (l : Str) (c : Char) (h : (pyStrip l).head? = some c) :
    isPySpace c = false := by
  rw [pyStrip] at h
  have hne : ((l.dropWhile isPySpace).reverse.dropWhile isPySpace).reverse ≠ [] := by
    intro hnil
    rw [hnil] at h
    simp at h
  have hpre : ((l.dropWhile isPySpace).reverse.dropWhile isPySpace).reverse <+:
      l.dropWhile isPySpace := by
    have hsuf : (l.dropWhile isPySpace).reverse.dropWhile isPySpace <:+
        (l.dropWhile isPySpace).reverse := List.dropWhile_suffix isPySpace
    have h2 := List.reverse_prefix.2 hsuf
    rwa [List.reverse_reverse] at h2
  obtain ⟨t, ht⟩ := hpre
  have hhm : (l.dropWhile isPySpace).head? = some c := by
    rw [← ht, List.head?_append_of_ne_nil _ hne, h]
  exact head?_dropWhile_false isPySpace l c hhm

/-- The last character left by `pyStrip` is not whitespace. -/
theorem pyStrip_getLast (l : Str) (c : Char) (h : (pyStrip l).getLast? = some c) :
    isPySpace c = false := by
  rw [pyStrip, List.getLast?_reverse] at h
  exact head?_dropWhile_false isPySpace _ c h

/-- Idempotence of `pyStrip`. -/
theorem pyStrip_idem (l : Str) : pyStrip (pyStrip l) = pyStrip l :=
  pyStrip_eq_self _ (fun c h => pyStrip_head l c h) (fun c h => pyStrip_getLast l c h)

/-- A list starting with an appended pattern starts with the pattern. -/
theorem pyStartsWith_append (p u : Str) : pyStartsWith (p ++ u) p = true := by
  rw [pyStartsWith, List.isPrefixOf_iff_prefix]
  exact List.prefix_append p u

/-- A list starting with a nonempty pattern is nonempty. -/
theorem ne_nil_of_startsWith {l p : Str} (hp : p ≠ [])
    (h : pyStartsWith l p = true) : l ≠ [] := by
  intro hl
  subst hl
  rw [pyStartsWith, List.isPrefixOf_iff_prefix] at h
  exact hp (List.prefix_nil.1 h)

/-- The value `_normalize_url` returns on nonempty input: always
present, already stripped, nonempty, and scheme-qualified. -/
theorem normalize_url_output (s : Str) (hs : s ≠ []) :
    ∃ r, normalize_url (some s) = some r ∧ pyStrip r = r ∧ r ≠ [] ∧
      (pyStartsWith r ("http://".data) ||
        pyStartsWith r ("https://".data)) = true := by
  have hidem : pyStrip (pyStrip s) = pyStrip s := pyStrip_idem s
  by_cases hA : (pyStartsWith (pyStrip s) ("http://".data) ||
      pyStartsWith (pyStrip s) ("https://".data)) = true
  · refine ⟨pyStrip s, ?_, hidem, ?_, hA⟩
    · simp only [normalize_url]
      rw [if_neg hs, if_pos hA]
    · have hA' : pyStartsWith (pyStrip s) ("http://".data) = true ∨
          pyStartsWith (pyStrip s) ("https://".data) = true := by
        simpa using hA
      rcases hA' with h | h
      · exact ne_nil_of_startsWith (by decide) h
      · exact ne_nil_of_startsWith (by decide) h
  · by_cases hB : pyStartsWith (pyStrip s) ("www.".data) = true
    · have hune : pyStrip s ≠ [] := ne_nil_of_startsWith (by decide) hB
      refine ⟨("https://".data) ++ pyStrip s, ?_, ?_, by simp, ?_⟩
      · simp only [normalize_url]
        rw [if_neg hs, if_neg hA, if_pos hB]
      · refine pyStrip_eq_self _ ?_ ?_
        · intro c hc
          have : c = 'h' := by
            simpa using hc.symm
          subst this
          decide
        · intro c hc
          rw [List.getLast?_append_of_ne_nil _ hune] at hc
          exact pyStrip_getLast s c hc
      · rw [Bool.or_eq_true]
        exact Or.inr (pyStartsWith_append ("https://".data) (pyStrip s))
    · refine ⟨("https://www.".data) ++ pyStrip s, ?_, ?_, by simp, ?_⟩
      · simp only [normalize_url]
        rw [if_neg hs, if_neg hA, if_neg hB]
      · by_cases hu : pyStrip s = []
        · rw [hu]
          decide
        · refine pyStrip_eq_self _ ?_ ?_
          · intro c hc
            have : c = 'h' := by
              simpa using hc.symm
            subst this
            decide
          · intro c hc
            rw [List.getLast?_append_of_ne_nil _ hu] at hc
            exact pyStrip_getLast s c hc
      · have hsplit : ("https://www.".data) ++ pyStrip s =
            ("https://".data) ++ (("www.".data) ++ pyStrip s) := rfl
        rw [hsplit, Bool.or_eq_true]
        exact Or.inr (pyStartsWith_append ("https://".data) (("www.".data) ++ pyStrip s))

/-- A stripped, nonempty, scheme-qualified value is a fixed point of
`_normalize_url`. -/
theorem normalize_url_fixpoint (r : Str) (hstrip : pyStrip r = r) (hne : r ≠ [])
    (hA : (pyStartsWith r ("http://".data) ||
        pyStartsWith r ("https://".data)) = true) :
    normalize_url (some r) = some r := by
  simp only [normalize_url, hstrip]
  rw [if_neg hne, if_pos hA]

/-- C9 fails as stated: a value that already starts with `http://` does
not in general pass through unchanged — `_normalize_url` first strips
surrounding whitespace, so `"http://a "` becomes `"http://a"`. -/
theorem normalize_url_counterexample :
    pyStartsWith ("http://a ".data) ("http://".data) = true ∧
    normalize_url (some ("http://a ".data)) = some ("http://a".data) ∧
    normalize_url (some ("http://a ".data)) ≠ some ("http://a ".data) := by
  refine ⟨by decide, by decide, by decide⟩

/-- C9 amended: URL normalization is idempotent on every input, and a
value that after whitespace stripping starts with `http://` or
`https://` is returned exactly as its stripped form (unchanged up to
the surrounding-whitespace trim). -/
theorem normalize_url_amended (v : Option Str) :
    normalize_url (normalize_url v) = normalize_url v ∧
    (∀ s, v = some s → s ≠ [] →
        (pyStartsWith (pyStrip s) ("http://".data) ||
            pyStartsWith (pyStrip s) ("https://".data)) = true →
        normalize_url v = some (pyStrip s)) := by
  constructor
  · cases v with
    | none => rfl
    | some s =>
      by_cases hs : s = []
      · simp [normalize_url, hs]
      · obtain ⟨r, hr, h1, h2, h3⟩ := normalize_url_output s hs
        rw [hr]
        exact normalize_url_fixpoint r h1 h2 h3
  · intro s hv hs hA
    subst hv
    simp only [normalize_url]
    rw [if_neg hs, if_pos hA]

/-- Witness for `normalize_url_amended` at the already-normalized input
`"https://www.knihovna.cz"`. -/
theorem normalize_url_amended_witness :
    normalize_url (some ("https://www.knihovna.cz".data)) =
      some (pyStrip ("https://www.knihovna.cz".data)) := by
  exact (normalize_url_amended (some ("https://www.knihovna.cz".data))).2
    ("https://www.knihovna.cz".data) rfl (by decide) (by decide)

/-- Position, take and drop of the marked element of `a ++ x :: t`. -/
theorem append_cons_split (a t : Str) (x : Char) :
    ((a ++ x :: t).get? a.length = some x) ∧ ((a ++ x :: t).take a.length = a) ∧
      ((a ++ x :: t).drop (a.length + 1) = t) := by
  induction a with
  | nil => simp
  | cons c cs ih =>
    refine ⟨?_, ?_, ?_⟩
    · simpa using ih.1
    · simp only [List.cons_append, List.length_cons, List.take_succ_cons]
      rw [ih.2.1]
    · simp only [List.cons_append, List.length_cons, List.drop_succ_cons]
      exact ih.2.2

/-- A list with `x` at position `i` splits as `take i ++ x :: drop (i + 1)`. -/
theorem get?_split (l : Str) (i : Nat) (x : Char) (h : l.get? i = some x) :
    l = l.take i ++ x :: l.drop (i + 1) := by
  obtain ⟨hlt, hget⟩ := List.get?_eq_some.1 h
  have hdrop : l.drop i = x :: l.drop (i + 1) := by
    rw [List.drop_eq_getElem_cons hlt]
    congr 1
  conv_lhs => rw [← List.take_append_drop i l]
  rw [hdrop]

/-- Characterization of `run1`: exactly the nonempty all-`okChar`
lists. -/
theorem run1_iff (l : Str) : run1 l = true ↔ l ≠ [] ∧ ∀ x ∈ l, okChar x = true := by
  simp [run1, List.all_eq_true, List.isEmpty_iff]

/-- The executable matcher of the regex core recognizes exactly
`EmailShape`. -/
theorem emailCore_iff (l : Str) : emailCore l = true ↔ EmailShape l := by
  constructor
  · intro h
    simp only [emailCore, List.any_eq_true, List.mem_range, Bool.and_eq_true,
      decide_eq_true_eq] at h
    obtain ⟨i, hi, ⟨⟨hat, hrun1⟩, j, hj, ⟨hdot, hrun2⟩, hrun3⟩⟩ := h
    have hsplit := get?_split l i '@' hat
    have hsplit2 := get?_split (l.drop (i + 1)) j '.' hdot
    obtain ⟨h1ne, h1ok⟩ := (run1_iff _).1 hrun1
    obtain ⟨h2ne, h2ok⟩ := (run1_iff _).1 hrun2
    obtain ⟨h3ne, h3ok⟩ := (run1_iff _).1 hrun3
    refine ⟨l.take i, (l.drop (i + 1)).take j, (l.drop (i + 1)).drop (j + 1),
      h1ne, h2ne, h3ne, h1ok, h2ok, h3ok, ?_⟩
    calc l = l.take i ++ '@' :: l.drop (i + 1) := hsplit
      _ = l.take i ++ '@' ::
            ((l.drop (i + 1)).take j ++ '.' :: (l.drop (i + 1)).drop (j + 1)) := by
          rw [← hsplit2]
  · rintro ⟨a, b, c, ha, hb, hc, hoka, hokb, hokc, rfl⟩
    simp only [emailCore, List.any_eq_true, List.mem_range, Bool.and_eq_true,
      decide_eq_true_eq]
    refine ⟨a.length, ?_, ⟨⟨?_, ?_⟩, ?_⟩⟩
    · simp only [List.length_append, List.length_cons]
      omega
    · exact (append_cons_split a _ '@').1
    · rw [(append_cons_split a _ '@').2.1]
      exact (run1_iff a).2 ⟨ha, hoka⟩
    · rw [(append_cons_split a _ '@').2.2]
      refine ⟨b.length, ?_, ⟨⟨?_, ?_⟩, ?_⟩⟩
      · simp only [List.length_append, List.length_cons]
        omega
      · exact (append_cons_split b c '.').1
      · rw [(append_cons_split b c '.').2.1]
        exact (run1_iff b).2 ⟨hb, hokb⟩
      · rw [(append_cons_split b c '.').2.2]
        exact (run1_iff c).2 ⟨hc, hokc⟩

/-- The full regex match with Python `$` semantics: the core language,
optionally followed by one trailing newline. -/
theorem emailFullMatch_iff (l : Str) :
    emailFullMatch l = true ↔
      (EmailShape l ∨ ∃ m, l = m ++ ['\n'] ∧ EmailShape m) := by
  simp only [emailFullMatch, Bool.or_eq_true, Bool.and_eq_true,
    decide_eq_true_eq, emailCore_iff]
  constructor
  · rintro (h | ⟨hlast, hshape⟩)
    · exact Or.inl h
    · exact Or.inr ⟨l.dropLast, (List.dropLast_append_getLast? '\n' hlast).symm, hshape⟩
  · rintro (h | ⟨m, rfl, hshape⟩)
    · exact Or.inl h
    · refine Or.inr ⟨List.getLast?_concat m, ?_⟩
      rwa [List.dropLast_concat]

/-- C3 fails as stated: `"a@b@c.d"` has no whitespace, at least one
`@`, and a `.` after an `@`, yet the regex
`^[^\s@]+@[^\s@]+\.[^\s@]+$` rejects it (no run may contain a second
`@`), so the flag is `false` where the wording of the spec says
`true`. -/
theorem email_claim_counterexample :
    spec_email_pattern ("a@b@c.d".data) = true ∧
    email_valid (some ("a@b@c.d".data)) = false := by
  refine ⟨by decide, by decide⟩

/-- C3 amended: the validity flag is `true` iff the value splits as
three nonempty whitespace-free `@`-free runs around a single `@` and a
later `.` (the language of `[^\s@]+@[^\s@]+\.[^\s@]+`), optionally
followed by one trailing newline (Python `$`); so the value has exactly
one `@`, not merely "at least one".  Absent or empty input yields
`false` and never an error. -/
theorem email_valid_amended (v : Option Str) :
    (email_valid v = true ↔
        ∃ l, v = some l ∧
          (EmailShape l ∨ ∃ m, l = m ++ ['\n'] ∧ EmailShape m)) ∧
    email_valid none = false ∧ email_valid (some []) = false := by
  refine ⟨?_, rfl, by decide⟩
  cases v with
  | none => simp [email_valid]
  | some s =>
    constructor
    · intro h
      exact ⟨s, rfl, (emailFullMatch_iff s).1 h⟩
    · rintro ⟨l, hl, h⟩
      obtain rfl : s = l := Option.some.inj hl
      exact (emailFullMatch_iff s).2 h

end MuniKnihovny
